import Mathlib

/-!
Verification of the AARLP recruitment-workflow system against its design
specification.  The development shallowly embeds, on one side, the code that
ships in the repository (the Next.js frontend components and the Python
workflow snippets recorded in the repository skill documents), and on the
other side the checkpointing workflow engine described by the specification,
whose backend implementation files are not part of the repository snapshot.
Definitions come first, theorems follow.
-/

/-- lowerStr mirrors JavaScript String.prototype.toLowerCase and Python
str.lower on the character sequence of a string. -/
def lowerStr (s : String) : String := String.mk (s.data.map Char.toLower)

/-- endsWithStr mirrors JavaScript String.prototype.endsWith: the second
string is a suffix of the first. -/
def endsWithStr (s pat : String) : Bool := pat.data.isSuffixOf s.data

namespace Front

/-- WorkflowStep from frontend/features/jobs/components/WorkflowProgressBar.tsx;
the icon field is a React component and carries no data relevant here, so it
is dropped from the embedding. -/
structure WorkflowStep where
  id : String
  label : String
deriving DecidableEq, Repr

/-- WORKFLOW_STEPS from WorkflowProgressBar.tsx. -/
def WORKFLOW_STEPS : List WorkflowStep :=
  [ ⟨"generate_jd", "Generate JD"⟩
  , ⟨"jd_review", "Review and Approve"⟩
  , ⟨"post_job", "Post Job"⟩
  , ⟨"monitor_applications", "Collect Applications"⟩
  , ⟨"shortlist_candidates", "Shortlist"⟩
  , ⟨"voice_prescreening", "Prescreening"⟩ ]

/-- getStepIndex from WorkflowProgressBar.tsx.  JavaScript findIndex yields -1
when no step id matches, which the source maps to 0; the embedding carries the
absent case as Option.none mapped to 0. -/
def getStepIndex (currentNode : String) : Nat :=
  match WORKFLOW_STEPS.findIdx? (fun s => s.id == currentNode) with
  | some index => index
  | none => 0

/-- stepBadgeNumber is the number rendered by WorkflowProgressBar in the
Step n of 6 badge: the current step index plus one. -/
def stepBadgeNumber (currentNode : String) : Nat :=
  getStepIndex currentNode + 1

/-- JsFile carries the two fields of a browser File object read by the
application form: its name and its size in bytes. -/
structure JsFile where
  name : String
  size : Nat
deriving DecidableEq, Repr

/-- handleFileChange from ApplicationModal (careers apply form): given the
selected file, returns the pair of resulting component states
(resumeFile, fileError).  A missing selection clears the file and leaves no
error; a non-pdf name or an oversize file clears the file and sets an error;
otherwise the file is accepted with no error. -/
def handleFileChange (file : Option JsFile) : Option JsFile × Option String :=
  match file with
  | none => (none, none)
  | some f =>
    if !(endsWithStr (lowerStr f.name) ".pdf") then
      (none, some "Please upload a PDF file")
    else if f.size > 10 * 1024 * 1024 then
      (none, some "File size must be less than 10MB")
    else
      (some f, none)

/-- acceptsResume states the acceptance condition of the form: the file name
ends case-insensitively in .pdf and the size is at most 10 MiB. -/
def acceptsResume (f : JsFile) : Bool :=
  endsWithStr (lowerStr f.name) ".pdf" && f.size ≤ 10 * 1024 * 1024

/-- SubmitOutcome is the observable behaviour of the onSubmit handler of
ApplicationModal: either it refuses before any network call, setting the
resume file error, or it posts the multipart form. -/
inductive SubmitOutcome where
  | blocked (fileErr : String)
  | posted (nameField emailField : String) (phone : Option String) (resume : JsFile)
deriving DecidableEq, Repr

/-- onSubmit from ApplicationModal: with no resume file it sets the error
Please upload your resume and returns without submitting; with a file it
submits the form data.  The network call itself is outside the embedding. -/
def onSubmit (nameField emailField : String) (phone : Option String)
    (resumeFile : Option JsFile) : SubmitOutcome :=
  match resumeFile with
  | none => SubmitOutcome.blocked "Please upload your resume"
  | some f => SubmitOutcome.posted nameField emailField phone f

end Front

namespace Wf

/-- Status of a job-description stage, from the workflow skill document
(Status.PENDING and Status.COMPLETED are the values the snippets use). -/
inductive Status where
  | PENDING
  | COMPLETED
deriving DecidableEq, Repr

/-- ApprovalStatus of a job description, from the workflow skill document. -/
inductive ApprovalStatus where
  | PENDING
  | APPROVED
  | REJECTED
deriving DecidableEq, Repr

/-- JobInput as read by the embedded snippets: apply_optimization_rules reads
only the optional location and salary_range attributes, so the embedding
carries those; the remaining schema fields are never read by embedded code. -/
structure JobInput where
  location : Option String
  salary_range : Option String
deriving DecidableEq, Repr

/-- GeneratedJD as read and written by the embedded snippets: job_title,
description, salary_range and benefits; the remaining schema fields are never
touched by embedded code. -/
structure GeneratedJD where
  job_title : String
  description : String
  salary_range : Option String
  benefits : List String
deriving DecidableEq, Repr

/-- pyTruthyStr is Python truthiness of an optional string: None and the
empty string are falsy, every other string is truthy. -/
def pyTruthyStr (o : Option String) : Bool :=
  match o with
  | none => false
  | some s => !(s == "")

/-- isInfixB decides the Python substring test x in y on character lists:
the needle occurs contiguously inside the haystack. -/
def isInfixB (needle : List Char) : List Char → Bool
  | [] => needle.isEmpty
  | c :: rest => needle.isPrefixOf (c :: rest) || isInfixB needle rest

/-- apply_optimization_rules from src/unnamed/part_016: rule 1 appends the
location to the title when the location is truthy and not already a
case-insensitive substring of the title; rule 2 fills in the salary range from
the job input when the generated one is falsy or the literal Competitive;
rules 3 and 4 only emit log lines and change no data. -/
def apply_optimization_rules (jd : GeneratedJD) (job_input : JobInput) : GeneratedJD :=
  let o1 :=
    if pyTruthyStr job_input.location
        && !(isInfixB (lowerStr (job_input.location.getD "")).data
              (lowerStr jd.job_title).data) then
      { jd with job_title := jd.job_title ++ " (" ++ job_input.location.getD "" ++ ")" }
    else jd
  let o2 :=
    if (!(pyTruthyStr jd.salary_range) || jd.salary_range == some "Competitive")
        && pyTruthyStr job_input.salary_range then
      { o1 with salary_range := job_input.salary_range }
    else o1
  o2

/-- JobDescriptionState from the workflow skill document: the jd sub-state of
the graph state, holding the generated title and content, the generation
status, the human approval status, the original job input and the optional
reviewer feedback. -/
structure JobDescriptionState where
  title : String
  content : String
  status : Status
  approval_status : ApprovalStatus
  input_data : JobInput
  feedback : Option String
deriving DecidableEq, Repr

/-- GraphState as used by the embedded snippets: job_id, current_node, the
error message and the jd sub-state.  Later pipeline sub-states and the
wall-clock timestamp fields are never read or written by any embedded snippet
and are omitted. -/
structure GraphState where
  job_id : String
  current_node : String
  error_message : Option String
  jd : JobDescriptionState
deriving DecidableEq, Repr

/-- generate_jd_node from src/unnamed/part_016 lines 1541 to 1567: reads the
job input from the state, calls the AI generation collaborator (the external
generate_job_description, passed here as the parameter gen), applies the
optimization rules, and copies the state with new content, new title and
status COMPLETED.  The source performs no completed-status check. -/
def generate_jd_node (gen : JobInput → GeneratedJD) (state : GraphState) : GraphState :=
  let job_input := state.jd.input_data
  let generated_jd := gen job_input
  let optimized_jd := apply_optimization_rules generated_jd job_input
  { state with jd := { state.jd with
      content := optimized_jd.description
      title := optimized_jd.job_title
      status := Status.COMPLETED } }

/-- idempotent_node from the workflow skill document (production best
practice 3): when the jd status is already COMPLETED the state is returned
unchanged; otherwise the work is performed.  The work branch is elided in the
source as a Do work comment and is passed here as the parameter work. -/
def idempotent_node (work : GraphState → GraphState) (state : GraphState) : GraphState :=
  if state.jd.status == Status.COMPLETED then state else work state

/-- NodeName from the workflow skill document and the README node table. -/
inductive NodeName where
  | GENERATE_JD
  | WAIT_JD_APPROVAL
  | POST_JOB
  | MONITOR_APPLICATIONS
  | SHORTLIST_CANDIDATES
  | VOICE_PRESCREENING
  | REVIEW_RESPONSES
  | SCHEDULE_INTERVIEW
  | REJECT_CANDIDATE
  | ERROR_HANDLER
deriving DecidableEq, Repr

/-- my_routing_function from the workflow skill document lines 233 to 243:
the conditional edge of the description-approval node, mapping an approved
state to the key approved, a rejected state to rejected, and anything else
(the pending state) to waiting. -/
def my_routing_function (state : GraphState) : String :=
  if state.jd.approval_status == ApprovalStatus.APPROVED then "approved"
  else if state.jd.approval_status == ApprovalStatus.REJECTED then "rejected"
  else "waiting"

/-- jd_approval_edge_map from the workflow skill document lines 245 to 253:
the route map registered for the description-approval conditional edge. -/
def jd_approval_edge_map : List (String × NodeName) :=
  [ ("approved", NodeName.POST_JOB)
  , ("rejected", NodeName.GENERATE_JD)
  , ("waiting", NodeName.WAIT_JD_APPROVAL) ]

/-- GraphError hierarchy from src/README.md lines 177 to 187. -/
inductive GraphError where
  | GraphExecutionError (message : String)
  | InvalidStateTransitionError (routeKey : String)
  | JDGenerationError (message : String)
  | JobPostingError (message : String)
  | ShortlistingError (message : String)
  | PrescreeningError (message : String)
  | SchedulingError (message : String)
  | FeatureNotImplementedError (message : String)
deriving DecidableEq, Repr

/-- Modelled from the spec: the LangGraph edge-resolution step itself is not
part of the repository snapshot; per the specification a RouteKey returned by
an edge function is resolved against the static route map, and an unmapped
RouteKey is a programming error raising InvalidStateTransitionError, never a
condition to recover from. -/
def resolveRoute (edgeMap : List (String × NodeName)) (routeKey : String) :
    Except GraphError NodeName :=
  match edgeMap.find? (fun e => e.1 == routeKey) with
  | some e => Except.ok e.2
  | none => Except.error (GraphError.InvalidStateTransitionError routeKey)

/-- cexGen is a concrete generation collaborator used to evaluate
generate_jd_node on concrete inputs. -/
def cexGen : JobInput → GeneratedJD :=
  fun _ => ⟨"ML Engineer", "fresh generated text", none, []⟩

/-- cexState is a concrete graph state whose description is already
COMPLETED, with content differing from what cexGen would produce. -/
def cexState : GraphState :=
  { job_id := "job-1"
  , current_node := "generate_jd"
  , error_message := none
  , jd :=
    { title := "ML Engineer"
    , content := "original text"
    , status := Status.COMPLETED
    , approval_status := ApprovalStatus.PENDING
    , input_data := ⟨none, none⟩
    , feedback := none } }

end Wf

namespace Eng

/-- Modelled from the spec: approval status of a human-gated sub-state
(section 3 of the specification); the backend state model file is not in the
repository snapshot. -/
inductive Appr where
  | pending
  | approved
  | rejected
deriving DecidableEq, Repr

/-- Modelled from the spec: generation status of the description sub-state. -/
inductive DStatus where
  | pending
  | completed
deriving DecidableEq, Repr

/-- Modelled from the spec: the description sub-state (title, body, approval
status, feedback) of section 3. -/
structure DescState where
  title : String
  body : String
  status : DStatus
  approval_status : Appr
  feedback : Option String
deriving DecidableEq, Repr

/-- Modelled from the spec: the posting sub-state (posted flag, external
posting reference). -/
structure PostingState where
  posted : Bool
  reference : Option String
deriving DecidableEq, Repr

/-- Modelled from the spec: the applicant sub-state (count, candidate
references, shortlist approval status). -/
structure ApplicantState where
  count : Nat
  candidates : List String
  shortlist_approval : Appr
deriving DecidableEq, Repr

/-- Modelled from the spec: the prescreening sub-state (completion flag,
per-candidate scores). -/
structure PrescreenState where
  complete : Bool
  scores : List (String × Nat)
deriving DecidableEq, Repr

/-- Modelled from the spec: the interview sub-state (scheduled count,
slots). -/
structure InterviewState where
  scheduled_count : Nat
  slots : List String
deriving DecidableEq, Repr

/-- Modelled from the spec: WorkflowState of section 3, the versioned
immutable snapshot of one job.  Timestamps are logical ticks; every
copy-with-update bumps updated_at. -/
structure WState where
  job_id : String
  thread_id : String
  current_node : String
  error_message : Option String
  description : DescState
  posting : PostingState
  applicants : ApplicantState
  prescreening : PrescreenState
  interviews : InterviewState
  created_at : Nat
  updated_at : Nat
deriving DecidableEq, Repr

/-- Modelled from the spec: a persisted Checkpoint tuple of section 3; the
checkpoint store file is not in the repository snapshot.  The written_at tick
reuses the sequence number as logical time. -/
structure Checkpoint where
  thread_id : String
  seq : Nat
  snapshot : WState
  written_at : Nat
deriving DecidableEq, Repr

/-- Modelled from the spec: the checkpoint store as an append-only log,
newest checkpoint first. -/
abbrev Store := List Checkpoint

/-- threadSeqs lists the sequence numbers persisted for one thread, newest
first. -/
def threadSeqs (store : Store) (tid : String) : List Nat :=
  (store.filter (fun c => c.thread_id == tid)).map (fun c => c.seq)

/-- maxSeq is the highest sequence number persisted for a thread, 0 when the
thread has no checkpoint yet. -/
def maxSeq (store : Store) (tid : String) : Nat :=
  (threadSeqs store tid).foldr max 0

/-- Modelled from the spec: save appends a checkpoint under the next
sequence number and never touches prior entries (section 4.2). -/
def saveCk (store : Store) (tid : String) (st : WState) : Store × Nat :=
  let s := maxSeq store tid + 1
  (⟨tid, s, st, s⟩ :: store, s)

/-- Modelled from the spec: load_latest returns the highest-sequence
checkpoint of the thread, or none (section 4.2). -/
def load_latest (store : Store) (tid : String) : Option WState :=
  (store.find? (fun c => c.thread_id == tid)).map (fun c => c.snapshot)

/-- Modelled from the spec: load_at retrieves a checkpoint by its sequence
number for auditing and rollback (section 4.2). -/
def load_at (store : Store) (tid : String) (n : Nat) : Option WState :=
  (store.find? (fun c => c.thread_id == tid && c.seq == n)).map (fun c => c.snapshot)

/-- decreasing decides that a list of naturals is strictly decreasing; on a
newest-first log this is exactly strictly-increasing sequence numbers in
order of writing. -/
def decreasing : List Nat → Bool
  | [] => true
  | [_] => true
  | a :: b :: t => decide (b < a) && decreasing (b :: t)

/-- wfT states the per-thread checkpoint invariant of section 3: the
sequence numbers written for the thread are strictly increasing. -/
def wfT (store : Store) (tid : String) : Bool :=
  decreasing (threadSeqs store tid)

/-- saveMany folds a sequence of saves for one thread over the store. -/
def saveMany (store : Store) (tid : String) : List WState → Store
  | [] => store
  | st :: rest => saveMany (saveCk store tid st).1 tid rest

/-- Modelled from the spec: the external collaborators consumed by nodes
(section 6): AI text generation and posting automation may fail, ranking and
applicant ingestion respond with data, and the monitoring threshold is static
configuration. -/
structure Collab where
  gen : WState → Except String String
  post : WState → Except String String
  rank : WState → List String
  ingest : WState → Nat
  threshold : Nat

/-- Modelled from the spec: interrupt nodes are the two human-in-the-loop
wait nodes (section 4.3). -/
def isInterrupt (node : String) : Bool :=
  node == "await-description-approval" || node == "await-shortlist-approval"

/-- Modelled from the spec: terminal nodes end the pipeline (the completed
end of section 4.5 and the terminal error node). -/
def isTerminal (node : String) : Bool :=
  node == "completed" || node == "error"

/-- Modelled from the spec: the node registry of section 4.3.
generate-description is idempotent on a completed description; the await
nodes perform no work; post-job calls the posting collaborator and fails
when it does; monitor-applications ingests the applicant count;
shortlist-candidates applies the ranking collaborator; voice-prescreening
and schedule-interview advance their sub-states.  A node failure is the
error value, caught at the engine boundary. -/
def execNode (c : Collab) (node : String) (st : WState) : Except String WState :=
  match node with
  | "generate-description" =>
      if st.description.status == DStatus.completed then Except.ok st
      else
        match c.gen st with
        | Except.ok txt =>
            Except.ok { st with
              description := { st.description with body := txt, status := DStatus.completed }
              updated_at := st.updated_at + 1 }
        | Except.error e => Except.error e
  | "await-description-approval" => Except.ok st
  | "await-shortlist-approval" => Except.ok st
  | "post-job" =>
      match c.post st with
      | Except.ok ref =>
          Except.ok { st with
            posting := { posted := true, reference := some ref }
            updated_at := st.updated_at + 1 }
      | Except.error e => Except.error e
  | "monitor-applications" =>
      Except.ok { st with
        applicants := { st.applicants with count := c.ingest st }
        updated_at := st.updated_at + 1 }
  | "shortlist-candidates" =>
      Except.ok { st with
        applicants := { st.applicants with candidates := c.rank st }
        updated_at := st.updated_at + 1 }
  | "voice-prescreening" =>
      Except.ok { st with
        prescreening := { st.prescreening with complete := true }
        updated_at := st.updated_at + 1 }
  | "schedule-interview" =>
      Except.ok { st with
        interviews := { st.interviews with scheduled_count := st.interviews.scheduled_count + 1 }
        updated_at := st.updated_at + 1 }
  | other => Except.error ("unknown node " ++ other)

/-- Modelled from the spec: the edge router of section 4.4, a pure function
of the state.  The description-approval edge maps approved to post-job,
rejected back to generate-description and pending to the wait node itself;
monitor-applications advances when the applicant threshold is met; the
shortlist-approval edge mirrors the description one at its own stage. -/
def route (c : Collab) (node : String) (st : WState) : Option String :=
  match node with
  | "generate-description" => some "await-description-approval"
  | "await-description-approval" =>
      match st.description.approval_status with
      | Appr.approved => some "post-job"
      | Appr.rejected => some "generate-description"
      | Appr.pending => some "await-description-approval"
  | "post-job" => some "monitor-applications"
  | "monitor-applications" =>
      some (if c.threshold ≤ st.applicants.count
            then "shortlist-candidates" else "monitor-applications")
  | "shortlist-candidates" => some "await-shortlist-approval"
  | "await-shortlist-approval" =>
      match st.applicants.shortlist_approval with
      | Appr.approved => some "voice-prescreening"
      | Appr.rejected => some "shortlist-candidates"
      | Appr.pending => some "await-shortlist-approval"
  | "voice-prescreening" => some "schedule-interview"
  | "schedule-interview" => some "completed"
  | _ => none

/-- Modelled from the spec: the engine failure values of section 4.5: a
wrapped node exception carrying the failing node, an unmapped route key, and
a missing checkpoint on resume. -/
inductive EngineFailure where
  | execution (node : String) (message : String)
  | invalidTransition (node : String)
  | checkpointNotFound (tid : String)
deriving DecidableEq, Repr

/-- RunResult packages the outcome of one engine invocation: the final
snapshot, the list of executed nodes in order, the store after all
checkpoint writes, and the failure if one occurred. -/
structure RunResult where
  final : WState
  trace : List String
  store : Store
  failure : Option EngineFailure
deriving Repr

/-- mkErrorState is the error checkpoint state of section 4.5: the failing
snapshot with current_node error and the message recorded. -/
def mkErrorState (st : WState) (msg : String) : WState :=
  { st with
    current_node := "error"
    error_message := some msg
    updated_at := st.updated_at + 1 }

/-- Modelled from the spec: the execution loop of section 4.5.  Each
iteration executes the current node, routes, advances current_node and
persists a checkpoint of the advanced state (so that the latest checkpoint
is exactly where resume continues, as the resume semantics and concrete
scenario 1 require), and stops when the advanced node is an interrupt or
terminal node.  A node exception is caught here: the engine writes an error
checkpoint and stops without retrying.  An unmapped route key surfaces
unchanged.  The fuel argument dominates the loop; no modelled scenario
exhausts it. -/
def runLoop (c : Collab) : Nat → Store → WState → List String → RunResult
  | 0, store, st, tr => ⟨st, tr, store, none⟩
  | Nat.succ fuel, store, st, tr =>
    match execNode c st.current_node st with
    | Except.error msg =>
        let errSt := mkErrorState st msg
        ⟨errSt, tr ++ [st.current_node], (saveCk store st.thread_id errSt).1,
         some (EngineFailure.execution st.current_node msg)⟩
    | Except.ok st1 =>
        match route c st.current_node st1 with
        | none =>
            ⟨st1, tr ++ [st.current_node], store,
             some (EngineFailure.invalidTransition st.current_node)⟩
        | some nxt =>
            let st2 := { st1 with current_node := nxt, updated_at := st1.updated_at + 1 }
            let store2 := (saveCk store st.thread_id st2).1
            if isInterrupt nxt || isTerminal nxt then
              ⟨st2, tr ++ [st.current_node], store2, none⟩
            else
              runLoop c fuel store2 st2 (tr ++ [st.current_node])

/-- engineFuel bounds the loop; the pipeline has eight nodes and every
modelled scenario halts well within this bound. -/
def engineFuel : Nat := 64

/-- Modelled from the spec: the fresh WorkflowState created once per job,
entering the pipeline at generate-description, with all sub-states at their
empty or pending defaults and the thread key job- followed by the job id. -/
def initialState (jobId : String) : WState :=
  { job_id := jobId
  , thread_id := "job-" ++ jobId
  , current_node := "generate-description"
  , error_message := none
  , description := ⟨"", "", DStatus.pending, Appr.pending, none⟩
  , posting := ⟨false, none⟩
  , applicants := ⟨0, [], Appr.pending⟩
  , prescreening := ⟨false, []⟩
  , interviews := ⟨0, []⟩
  , created_at := 0
  , updated_at := 0 }

/-- Modelled from the spec: run_until_interrupt on a fresh thread, as
invoked by the create-job entry point of section 6. -/
def run_until_interrupt (c : Collab) (store : Store) (jobId : String) : RunResult :=
  runLoop c engineFuel store (initialState jobId) []

/-- JobCreateResponseE is the response of the create-job entry point:
the job id and the node the engine halted at. -/
structure JobCreateResponseE where
  job_id : String
  current_node : String
deriving DecidableEq, Repr

/-- Modelled from the spec: POST create-job runs the engine until the first
interrupt and returns the job id with the halt node. -/
def create_job (c : Collab) (store : Store) (jobId : String) :
    JobCreateResponseE × RunResult :=
  let r := run_until_interrupt c store jobId
  (⟨jobId, r.final.current_node⟩, r)

/-- Modelled from the spec: GET job-status is the read-only projection of
the latest checkpoint; it never mutates. -/
def job_status (store : Store) (jobId : String) : Option String :=
  (load_latest store ("job-" ++ jobId)).map (fun st => st.current_node)

/-- Modelled from the spec: the copy-with-update payload carrying a human
decision of section 6: an approval decision, a description-status reset and
reviewer feedback. -/
structure StateUpdates where
  approval_status : Option Appr
  description_status : Option DStatus
  feedback : Option String
deriving DecidableEq, Repr

/-- Modelled from the spec: applying human-decision updates as a
copy-with-update that refreshes updated_at and leaves every other field of
the snapshot intact. -/
def applyUpdates (st : WState) (u : StateUpdates) : WState :=
  { st with
    description := { st.description with
      approval_status := u.approval_status.getD st.description.approval_status
      status := u.description_status.getD st.description.status
      feedback := match u.feedback with
        | none => st.description.feedback
        | some f => some f }
    updated_at := st.updated_at + 1 }

/-- approveUpdates is the payload of POST approve-description: the
description approval status becomes approved. -/
def approveUpdates : StateUpdates := ⟨some Appr.approved, none, none⟩

/-- Modelled from the spec: resume_from_checkpoint of section 4.5: load the
latest checkpoint of the thread, apply the updates, and run the same loop
from the now-updated current node.  A thread with no checkpoint fails. -/
def resume_from_checkpoint (c : Collab) (store : Store) (tid : String)
    (u : StateUpdates) : RunResult :=
  match load_latest store tid with
  | none => ⟨initialState "", [], store, some (EngineFailure.checkpointNotFound tid)⟩
  | some st => runLoop c engineFuel store (applyUpdates st u) []

/-- LockOutcome of one resume attempt under the distributed lock: either
the lock was contended and nothing ran, or the attempt was admitted. -/
inductive LockOutcome where
  | contended
  | ran (r : RunResult)

/-- Modelled from the spec: a resume attempt under the per-thread
distributed lock of section 5.  While another execution holds the lock the
attempt receives a lock-contention outcome and touches nothing; otherwise it
acquires the lock for the duration of the loop and releases it at the end,
returning the updated store. -/
def resume_with_lock (c : Collab) (lock : Option String) (store : Store)
    (tid : String) (u : StateUpdates) : LockOutcome × Option String × Store :=
  match lock with
  | some holder => (LockOutcome.contended, some holder, store)
  | none =>
      let r := resume_from_checkpoint c store tid u
      (LockOutcome.ran r, none, r.store)

/-- approvedReachable is the set of nodes reachable from the approved edge
of the description-approval node, the nodes the loop may execute after an
approval; the upstream generate-description node is not among them. -/
def approvedReachable : List String :=
  [ "post-job", "monitor-applications", "shortlist-candidates"
  , "await-shortlist-approval", "voice-prescreening", "schedule-interview" ]

/-- stateOkB decides the error-field invariant of section 3: a non-null
error_message forces current_node to be the error node. -/
def stateOkB (st : WState) : Bool :=
  st.error_message.isNone || (st.current_node == "error")

/-- okCollab is a concrete set of well-behaved collaborators used to
evaluate the engine on concrete scenarios. -/
def okCollab : Collab :=
  { gen := fun _ => Except.ok "generated body"
  , post := fun _ => Except.ok "posting-ref-1"
  , rank := fun _ => ["alice"]
  , ingest := fun _ => 5
  , threshold := 3 }

/-- downCollab behaves like okCollab except that the posting collaborator
fails. -/
def downCollab : Collab :=
  { okCollab with post := fun _ => Except.error "board down" }

/-- createdWaitStore is the store after creating job 42 on an empty store:
it holds the checkpoint written when the engine halted at the
description-approval wait node. -/
def createdWaitStore : Store := (create_job okCollab [] "42").2.store

/-- createdWaitState is the final snapshot of creating job 42: parked at the
description-approval wait node with a completed description. -/
def createdWaitState : WState := (create_job okCollab [] "42").2.final

/-- postFailState is the parked snapshot advanced by hand to the post-job
node, used to exercise the engine error path. -/
def postFailState : WState :=
  { createdWaitState with current_node := "post-job" }

end Eng

namespace Front

/-- C9: getStepIndex is total on strings; every currentNode that is not one of
the six WORKFLOW_STEPS ids is sent to step index 0, hence the progress bar
badge renders step 1 for it. -/
theorem getStepIndex_defaults_to_zero (s : String)
    (h : s ∉ WORKFLOW_STEPS.map (fun st => st.id)) :
    getStepIndex s = 0 ∧ stepBadgeNumber s = 1 := by
  have hnone : WORKFLOW_STEPS.findIdx? (fun st => st.id == s) = none := by
    rw [List.findIdx?_eq_none_iff]
    intro st hst
    have : st.id ≠ s := fun heq => h (heq ▸ List.mem_map_of_mem _ hst)
    simpa using this
  constructor
  · simp [getStepIndex, hnone]
  · simp [stepBadgeNumber, getStepIndex, hnone]

/-- C9 witness: the dashboard approval-wait id await_jd_approval and the
error node are not workflow step ids, so both render as step 1. -/
theorem getStepIndex_defaults_witness :
    getStepIndex "await_jd_approval" = 0 ∧ stepBadgeNumber "error" = 1 :=
  ⟨(getStepIndex_defaults_to_zero "await_jd_approval" (by decide)).1,
   (getStepIndex_defaults_to_zero "error" (by decide)).2⟩

/-- C10: the application form accepts a resume file exactly when its name ends
case-insensitively in .pdf and its size is at most 10 times 1024 times 1024
bytes; any other file yields a cleared resumeFile together with a non-null
fileError, and onSubmit refuses to submit while resumeFile is null. -/
theorem resume_validation_characterisation (f : Front.JsFile) :
    (handleFileChange (some f) = (some f, none) ↔ acceptsResume f = true)
    ∧ (acceptsResume f = false →
        (handleFileChange (some f)).1 = none
        ∧ (handleFileChange (some f)).2.isSome = true)
    ∧ (∀ nameField emailField phone,
        onSubmit nameField emailField phone none
          = SubmitOutcome.blocked "Please upload your resume") := by
  refine ⟨?_, ?_, fun _ _ _ => rfl⟩
  · unfold handleFileChange acceptsResume
    by_cases hp : endsWithStr (lowerStr f.name) ".pdf"
    · by_cases hs : f.size > 10 * 1024 * 1024
      · simp [hp, hs, Nat.not_le_of_lt hs]
      · simp [hp, hs, Nat.le_of_not_lt hs]
    · simp [hp]
  · intro hrej
    unfold handleFileChange
    unfold acceptsResume at hrej
    by_cases hp : endsWithStr (lowerStr f.name) ".pdf"
    · by_cases hs : f.size > 10 * 1024 * 1024
      · simp [hp, hs]
      · exfalso
        rw [hp] at hrej
        simp [Nat.le_of_not_lt hs] at hrej
    · simp [hp]

/-- C10 witness: a concrete docx file is rejected with an error message, and
submission with no stored resume file is blocked. -/
theorem resume_validation_witness :
    (handleFileChange (some ⟨"resume.docx", 100⟩)).1 = none
    ∧ onSubmit "Ada" "ada.at.example.com" none none
        = SubmitOutcome.blocked "Please upload your resume" :=
  ⟨((resume_validation_characterisation ⟨"resume.docx", 100⟩).2.1 (by decide)).1,
   (resume_validation_characterisation ⟨"resume.docx", 100⟩).2.2 "Ada" "ada.at.example.com" none⟩

end Front

namespace Wf

/-- C1 counterexample: the recorded generate_jd_node, run on a state whose
description status is already COMPLETED, does not return the state unchanged:
it consults the generation collaborator again and overwrites the content. -/
theorem generate_jd_node_reentry_cex :
    cexState.jd.status = Status.COMPLETED
    ∧ generate_jd_node cexGen cexState ≠ cexState := by
  constructor
  · rfl
  · decide

/-- C1 (amended): generate_jd_node regenerates unconditionally, but the
idempotency guard the repository documents (idempotent_node) satisfies the
claimed property: on a state whose description status is COMPLETED it returns
the state unchanged, running it twice gives exactly the once-run result, and
its output does not depend on the work collaborator at all, so no duplicate
generation call is observable. -/
theorem idempotent_node_reentry (work : GraphState → GraphState)
    (state : GraphState) (h : state.jd.status = Status.COMPLETED) :
    idempotent_node work state = state
    ∧ idempotent_node work (idempotent_node work state) = idempotent_node work state
    ∧ (∀ work2, idempotent_node work state = idempotent_node work2 state) := by
  have hskip : ∀ w : GraphState → GraphState, idempotent_node w state = state := by
    intro w
    unfold idempotent_node
    simp [h]
  refine ⟨hskip work, ?_, fun work2 => (hskip work).trans (hskip work2).symm⟩
  rw [hskip work, hskip work]

/-- C1 witness: the guard applied to a concrete completed state and a work
function that would visibly change the state still returns the state
unchanged. -/
theorem idempotent_node_reentry_witness :
    idempotent_node (fun s => { s with current_node := "changed" }) cexState = cexState :=
  (idempotent_node_reentry (fun s => { s with current_node := "changed" }) cexState rfl).1

/-- C4: the description-approval edge function is total, every RouteKey it
returns resolves in the registered route map, an approved state resolves to
POST_JOB, a rejected state back to GENERATE_JD, a pending state to
WAIT_JD_APPROVAL, and a RouteKey absent from the map resolves to an
InvalidStateTransitionError rather than any recovery. -/
theorem jd_approval_routing_total (state : GraphState) :
    (∃ n, resolveRoute jd_approval_edge_map (my_routing_function state) = Except.ok n)
    ∧ (state.jd.approval_status = ApprovalStatus.APPROVED →
        resolveRoute jd_approval_edge_map (my_routing_function state)
          = Except.ok NodeName.POST_JOB)
    ∧ (state.jd.approval_status = ApprovalStatus.REJECTED →
        resolveRoute jd_approval_edge_map (my_routing_function state)
          = Except.ok NodeName.GENERATE_JD)
    ∧ (state.jd.approval_status = ApprovalStatus.PENDING →
        resolveRoute jd_approval_edge_map (my_routing_function state)
          = Except.ok NodeName.WAIT_JD_APPROVAL)
    ∧ (∀ key, jd_approval_edge_map.find? (fun e => e.1 == key) = none →
        resolveRoute jd_approval_edge_map key
          = Except.error (GraphError.InvalidStateTransitionError key)) := by
  refine ⟨?_, ?_, ?_, ?_, ?_⟩
  · cases h : state.jd.approval_status with
    | PENDING =>
        exact ⟨NodeName.WAIT_JD_APPROVAL,
          by simp [my_routing_function, h, resolveRoute, jd_approval_edge_map]⟩
    | APPROVED =>
        exact ⟨NodeName.POST_JOB,
          by simp [my_routing_function, h, resolveRoute, jd_approval_edge_map]⟩
    | REJECTED =>
        exact ⟨NodeName.GENERATE_JD,
          by simp [my_routing_function, h, resolveRoute, jd_approval_edge_map]⟩
  · intro h; simp [my_routing_function, h, resolveRoute, jd_approval_edge_map]
  · intro h; simp [my_routing_function, h, resolveRoute, jd_approval_edge_map]
  · intro h; simp [my_routing_function, h, resolveRoute, jd_approval_edge_map]
  · intro key h; simp [resolveRoute, h]

/-- C4 witness: the concrete pending state routes to the wait node, and the
unmapped key bogus resolves to an InvalidStateTransitionError. -/
theorem jd_approval_routing_witness :
    resolveRoute jd_approval_edge_map (my_routing_function cexState)
      = Except.ok NodeName.WAIT_JD_APPROVAL
    ∧ resolveRoute jd_approval_edge_map "bogus"
      = Except.error (GraphError.InvalidStateTransitionError "bogus") :=
  ⟨(jd_approval_routing_total cexState).2.2.2.1 rfl,
   (jd_approval_routing_total cexState).2.2.2.2 "bogus" (by decide)⟩

end Wf

namespace Eng

/-- Every member of a list of naturals is bounded by its foldr max. -/
theorem le_foldrMax {l : List Nat} {x : Nat} (hx : x ∈ l) : x ≤ l.foldr max 0 := by
  induction l with
  | nil => cases hx
  | cons a t ih =>
    rcases List.mem_cons.mp hx with h | h
    · subst h; exact Nat.le_max_left _ _
    · exact Nat.le_trans (ih h) (Nat.le_max_right _ _)

/-- threadSeqs over a cons either picks up the head or skips it, by thread. -/
theorem threadSeqs_cons (ck : Checkpoint) (store : Store) (tid : String) :
    threadSeqs (ck :: store) tid
      = if ck.thread_id == tid then ck.seq :: threadSeqs store tid
        else threadSeqs store tid := by
  by_cases h : ck.thread_id == tid <;> simp [threadSeqs, List.filter_cons, h]

/-- Any sequence number persisted for a thread is at most maxSeq. -/
theorem seq_le_maxSeq {store : Store} {tid : String} {ck : Checkpoint}
    (hmem : ck ∈ store) (htid : ck.thread_id = tid) : ck.seq ≤ maxSeq store tid := by
  apply le_foldrMax
  unfold threadSeqs
  exact List.mem_map_of_mem _ (List.mem_filter.mpr ⟨hmem, by simp [htid]⟩)

/-- Consing a strict upper bound onto a strictly decreasing list keeps it
strictly decreasing. -/
theorem decreasing_cons {l : List Nat} {a : Nat} (h1 : decreasing l = true)
    (h2 : ∀ x ∈ l, x < a) : decreasing (a :: l) = true := by
  cases l with
  | nil => rfl
  | cons b t =>
    unfold decreasing
    have hb : b < a := h2 b (List.mem_cons_self b t)
    simp [hb, h1]

/-- Saving preserves the per-thread strictly-increasing invariant, for every
thread. -/
theorem saveCk_wf {store : Store} {tid : String} {st : WState} (t : String)
    (hwf : wfT store t = true) : wfT (saveCk store tid st).1 t = true := by
  unfold wfT saveCk
  rw [threadSeqs_cons]
  by_cases h : tid == t
  · simp only [h]
    have ht : tid = t := by simpa using h
    subst ht
    apply decreasing_cons hwf
    intro x hx
    have : x ≤ maxSeq store tid := le_foldrMax hx
    omega
  · simp only [h]
    exact hwf

/-- A checkpoint retrievable by sequence number before a save is retrievable
unchanged after it. -/
theorem load_at_save_preserved {store : Store} {tid tid2 : String} {n : Nat}
    {s0 : WState} (st : WState)
    (h : load_at store tid n = some s0) :
    load_at (saveCk store tid2 st).1 tid n = some s0 := by
  obtain ⟨ck, hfind, hsnap⟩ : ∃ ck, store.find?
      (fun c => c.thread_id == tid && c.seq == n) = some ck ∧ ck.snapshot = s0 := by
    unfold load_at at h
    cases hf : store.find? (fun c => c.thread_id == tid && c.seq == n) with
    | none => rw [hf] at h; cases h
    | some c => rw [hf] at h; exact ⟨c, rfl, by simpa using h⟩
  have hp := List.find?_some hfind
  have hckmem := List.mem_of_find?_eq_some hfind
  have hpq : ck.thread_id = tid ∧ ck.seq = n := by simpa using hp
  have htid : ck.thread_id = tid := hpq.1
  have hseq : ck.seq = n := hpq.2
  unfold load_at saveCk
  by_cases hsame : tid2 = tid
  · subst hsame
    have hn_le : n ≤ maxSeq store tid2 := hseq ▸ seq_le_maxSeq hckmem htid
    rw [List.find?_cons_of_neg]
    · unfold load_at at h; exact h
    · simp only [Bool.and_eq_true, beq_iff_eq]
      intro hcontra
      omega
  · rw [List.find?_cons_of_neg]
    · unfold load_at at h; exact h
    · simp only [Bool.and_eq_true, beq_iff_eq]
      intro hcontra
      exact hsame hcontra.1

/-- After a sequence of saves for one thread, load_latest returns the last
state saved. -/
theorem saveMany_latest (tid : String) :
    ∀ (sts : List WState) (store : Store) (lastSt : WState),
      sts.getLast? = some lastSt →
      load_latest (saveMany store tid sts) tid = some lastSt := by
  intro sts
  induction sts with
  | nil => intro store lastSt h; cases h
  | cons st rest ih =>
    intro store lastSt h
    cases rest with
    | nil =>
      have : lastSt = st := by simpa using h.symm
      subst this
      simp [saveMany, saveCk, load_latest, List.find?_cons_of_pos]
    | cons st2 rest2 =>
      rw [List.getLast?_cons_cons] at h
      exact ih _ lastSt h

/-- C2: a checkpoint save appends and never overwrites: every prior
checkpoint stays in the store and stays retrievable by its sequence number,
the new sequence number strictly exceeds every prior one for the thread, the
strictly-increasing invariant is preserved, the just-saved state is what
load_latest returns, the new sequence number is the unique maximum for the
thread, and after any sequence of saves load_latest returns the last state
saved. -/
theorem checkpoint_append_only (store : Store) (tid : String) (st : WState)
    (hwf : wfT store tid = true) :
    (∀ ck ∈ store, ck ∈ (saveCk store tid st).1)
    ∧ (∀ n s0, load_at store tid n = some s0 →
        load_at (saveCk store tid st).1 tid n = some s0)
    ∧ (∀ ck ∈ store, ck.thread_id = tid → ck.seq < (saveCk store tid st).2)
    ∧ wfT (saveCk store tid st).1 tid = true
    ∧ load_latest (saveCk store tid st).1 tid = some st
    ∧ (∀ ck ∈ (saveCk store tid st).1, ck.thread_id = tid →
        ck.seq ≤ (saveCk store tid st).2)
    ∧ (∀ ck ∈ (saveCk store tid st).1, ck.thread_id = tid →
        ck.seq = (saveCk store tid st).2 → ck.snapshot = st)
    ∧ (∀ (sts : List WState) (lastSt : WState), sts.getLast? = some lastSt →
        load_latest (saveMany store tid sts) tid = some lastSt) := by
  refine ⟨?_, ?_, ?_, saveCk_wf tid hwf, ?_, ?_, ?_, fun sts lastSt h => saveMany_latest tid sts store lastSt h⟩
  · intro ck hck
    exact List.mem_cons_of_mem _ hck
  · intro n s0 h
    exact load_at_save_preserved st h
  · intro ck hck htid
    have := seq_le_maxSeq hck htid
    simp only [saveCk]
    omega
  · simp [saveCk, load_latest, List.find?_cons_of_pos]
  · intro ck hck htid
    simp only [saveCk] at hck ⊢
    rcases List.mem_cons.mp hck with h | h
    · subst h; exact Nat.le_refl _
    · exact Nat.le_succ_of_le (seq_le_maxSeq h htid)
  · intro ck hck htid hseq
    simp only [saveCk] at hck hseq ⊢
    rcases List.mem_cons.mp hck with h | h
    · subst h; rfl
    · exfalso
      have := seq_le_maxSeq h htid
      omega

/-- C2 witness: saving twice on an empty store produces sequence numbers 1
then 2, and load_latest returns the second state. -/
theorem checkpoint_append_only_witness :
    wfT [] "job-7" = true
    ∧ (saveCk [] "job-7" (initialState "7")).2 = 1
    ∧ load_latest (saveMany [] "job-7" [initialState "7", mkErrorState (initialState "7") "m"]) "job-7"
        = some (mkErrorState (initialState "7") "m") :=
  ⟨rfl, rfl,
   (checkpoint_append_only [] "job-7" (initialState "7") rfl).2.2.2.2.2.2.2
     [initialState "7", mkErrorState (initialState "7") "m"]
     (mkErrorState (initialState "7") "m") rfl⟩

end Eng

namespace Eng

/-- C3: when the node the engine is about to run raises, the engine wraps
the failure into an execution failure carrying the failing node identifier,
writes an error checkpoint: the resulting store is exactly the prior store
with the error state appended by saveCk, so the latest checkpoint of the
thread is now the error state, whose current_node is error and whose
error_message records the failure.  It executes nothing further (the trace
grows by exactly the failing node), and every checkpoint persisted before
the failure remains retrievable by its sequence number. -/
theorem node_failure_halts (c : Collab) (fuel : Nat) (store : Store) (st : WState)
    (tr : List String) (msg : String)
    (hfail : execNode c st.current_node st = Except.error msg) :
    (runLoop c (fuel + 1) store st tr).failure
        = some (EngineFailure.execution st.current_node msg)
    ∧ (runLoop c (fuel + 1) store st tr).final.current_node = "error"
    ∧ (runLoop c (fuel + 1) store st tr).final.error_message = some msg
    ∧ (runLoop c (fuel + 1) store st tr).store
        = (saveCk store st.thread_id (mkErrorState st msg)).1
    ∧ load_latest (runLoop c (fuel + 1) store st tr).store st.thread_id
        = some (runLoop c (fuel + 1) store st tr).final
    ∧ (runLoop c (fuel + 1) store st tr).trace = tr ++ [st.current_node]
    ∧ (∀ n s0, load_at store st.thread_id n = some s0 →
        load_at (runLoop c (fuel + 1) store st tr).store st.thread_id n = some s0) := by
  have h : runLoop c (fuel + 1) store st tr
      = ⟨mkErrorState st msg, tr ++ [st.current_node],
         (saveCk store st.thread_id (mkErrorState st msg)).1,
         some (EngineFailure.execution st.current_node msg)⟩ := by
    show runLoop c (Nat.succ fuel) store st tr = _
    unfold runLoop
    rw [hfail]
  rw [h]
  refine ⟨rfl, rfl, rfl, rfl, ?_, rfl, ?_⟩
  · simp [saveCk, load_latest, List.find?_cons_of_pos]
  · intro n s0 hload
    exact load_at_save_preserved _ hload

/-- C3 witness: with the posting collaborator down, running the engine from
the approved post-job snapshot produces the execution failure for post-job,
an error state with the message, a persisted error checkpoint that is now
what load_latest returns for the thread, a single further node execution,
and the checkpoint written at creation time stays retrievable at
sequence 1. -/
theorem node_failure_halts_witness :
    (runLoop downCollab 1 createdWaitStore postFailState []).failure
        = some (EngineFailure.execution "post-job" "board down")
    ∧ (runLoop downCollab 1 createdWaitStore postFailState []).final.current_node = "error"
    ∧ load_latest (runLoop downCollab 1 createdWaitStore postFailState []).store
        "job-42" = some (runLoop downCollab 1 createdWaitStore postFailState []).final
    ∧ load_at (runLoop downCollab 1 createdWaitStore postFailState []).store
        "job-42" 1 = some createdWaitState := by
  have happ := node_failure_halts downCollab 0 createdWaitStore postFailState [] "board down" rfl
  have hthread : postFailState.thread_id = "job-42" := by decide
  refine ⟨?_, ?_, ?_, ?_⟩
  · have := happ.1
    simpa using this
  · exact happ.2.1
  · have := happ.2.2.2.2.1
    rw [hthread] at this
    exact this
  · have := happ.2.2.2.2.2.2 1 createdWaitState
    rw [hthread] at this
    exact this (by decide)

end Eng

namespace Eng

/-- A successful node execution never touches error_message or
current_node: nodes transform only their own sub-states. -/
theorem execNode_ok_fields {c : Collab} {node : String} {st st1 : WState}
    (h : execNode c node st = Except.ok st1) :
    st1.error_message = st.error_message ∧ st1.current_node = st.current_node := by
  unfold execNode at h
  repeat' split at h
  all_goals cases h
  all_goals exact ⟨rfl, rfl⟩

/-- The terminal error node is not executable: the registry has no handler
for it. -/
theorem execNode_error_node (c : Collab) (st : WState) :
    execNode c "error" st = Except.error "unknown node error" := rfl

/-- stateOkB is exactly the error-field invariant in Prop form. -/
theorem stateOkB_spec (s : WState) :
    stateOkB s = true ↔ (s.error_message ≠ none → s.current_node = "error") := by
  unfold stateOkB
  cases hm : s.error_message with
  | none => simp
  | some m => simp

/-- Equation: the loop at zero fuel returns the state as is. -/
theorem runLoop_zero (c : Collab) (store : Store) (st : WState) (tr : List String) :
    runLoop c 0 store st tr = ⟨st, tr, store, none⟩ := rfl

/-- Equation: a failing node execution produces the error checkpoint and
stops. -/
theorem runLoop_succ_error {c : Collab} {st : WState} {msg : String}
    (fuel : Nat) (store : Store) (tr : List String)
    (hexec : execNode c st.current_node st = Except.error msg) :
    runLoop c (fuel + 1) store st tr
      = ⟨mkErrorState st msg, tr ++ [st.current_node],
         (saveCk store st.thread_id (mkErrorState st msg)).1,
         some (EngineFailure.execution st.current_node msg)⟩ := by
  show runLoop c (Nat.succ fuel) store st tr = _
  unfold runLoop
  rw [hexec]

/-- Equation: an unroutable node surfaces the invalid-transition failure
without writing. -/
theorem runLoop_succ_none {c : Collab} {st st1 : WState}
    (fuel : Nat) (store : Store) (tr : List String)
    (hexec : execNode c st.current_node st = Except.ok st1)
    (hroute : route c st.current_node st1 = none) :
    runLoop c (fuel + 1) store st tr
      = ⟨st1, tr ++ [st.current_node], store,
         some (EngineFailure.invalidTransition st.current_node)⟩ := by
  show runLoop c (Nat.succ fuel) store st tr = _
  unfold runLoop
  rw [hexec]
  dsimp only
  rw [hroute]

/-- Equation: a routed step advances current_node, persists the advanced
state, and either halts at an interrupt or terminal node or loops. -/
theorem runLoop_succ_step {c : Collab} {st st1 : WState} {nxt : String}
    (fuel : Nat) (store : Store) (tr : List String)
    (hexec : execNode c st.current_node st = Except.ok st1)
    (hroute : route c st.current_node st1 = some nxt) :
    runLoop c (fuel + 1) store st tr
      = (if isInterrupt nxt || isTerminal nxt then
          ⟨{ st1 with current_node := nxt, updated_at := st1.updated_at + 1 },
           tr ++ [st.current_node],
           (saveCk store st.thread_id
             { st1 with current_node := nxt, updated_at := st1.updated_at + 1 }).1,
           none⟩
        else
          runLoop c fuel
            (saveCk store st.thread_id
              { st1 with current_node := nxt, updated_at := st1.updated_at + 1 }).1
            { st1 with current_node := nxt, updated_at := st1.updated_at + 1 }
            (tr ++ [st.current_node])) := by
  show runLoop c (Nat.succ fuel) store st tr = _
  simp only [runLoop]
  rw [hexec]
  dsimp only
  rw [hroute]

/-- The loop preserves the error-field invariant on its final state and on
every checkpoint it writes. -/
theorem runLoop_stateOk (c : Collab) :
    ∀ (fuel : Nat) (store : Store) (st : WState) (tr : List String),
      stateOkB st = true → (∀ ck ∈ store, stateOkB ck.snapshot = true) →
      stateOkB (runLoop c fuel store st tr).final = true
      ∧ (∀ ck ∈ (runLoop c fuel store st tr).store, stateOkB ck.snapshot = true) := by
  intro fuel
  induction fuel with
  | zero =>
    intro store st tr hst hstore
    rw [runLoop_zero]
    exact ⟨hst, hstore⟩
  | succ fuel ih =>
    intro store st tr hst hstore
    cases hexec : execNode c st.current_node st with
    | error msg =>
      rw [runLoop_succ_error fuel store tr hexec]
      refine ⟨by simp [mkErrorState, stateOkB], ?_⟩
      intro ck hck
      rcases List.mem_cons.mp hck with h | h
      · subst h; simp [mkErrorState, stateOkB]
      · exact hstore ck h
    | ok st1 =>
      have hf := execNode_ok_fields hexec
      have hok1 : stateOkB st1 = true := by
        unfold stateOkB at hst ⊢
        rw [hf.1, hf.2]
        exact hst
      have hnoterr : st1.error_message = none := by
        by_cases hm : st1.error_message = none
        · exact hm
        · exfalso
          have hcur : st1.current_node = "error" :=
            (stateOkB_spec st1).mp hok1 hm
          have hcur0 : st.current_node = "error" := by rw [← hf.2]; exact hcur
          rw [hcur0, execNode_error_node] at hexec
          cases hexec
      cases hroute : route c st.current_node st1 with
      | none =>
        rw [runLoop_succ_none fuel store tr hexec hroute]
        exact ⟨hok1, hstore⟩
      | some nxt =>
        rw [runLoop_succ_step fuel store tr hexec hroute]
        have hok2 : stateOkB { st1 with current_node := nxt, updated_at := st1.updated_at + 1 } = true := by
          unfold stateOkB
          simp [hnoterr]
        have hstore2 : ∀ ck ∈ (saveCk store st.thread_id { st1 with current_node := nxt, updated_at := st1.updated_at + 1 }).1, stateOkB ck.snapshot = true := by
          intro ck hck
          rcases List.mem_cons.mp hck with h | h
          · subst h; exact hok2
          · exact hstore ck h
        refine ⟨?_, ?_⟩ <;> split
        · exact hok2
        · exact (ih _ _ _ hok2 hstore2).1
        · exact hstore2
        · exact (ih _ _ _ hok2 hstore2).2

/-- C6: the error-field invariant holds of every state the engine can
produce: the fresh state satisfies it, applying human-decision updates
preserves it, and any engine run from a state satisfying it, over a store of
checkpoints satisfying it, yields a final state and only checkpoints in
which a non-null error_message forces current_node to be error. -/
theorem error_implies_error_node (c : Collab) (fuel : Nat) (store : Store)
    (st : WState) (tr : List String)
    (hst : stateOkB st = true)
    (hstore : ∀ ck ∈ store, stateOkB ck.snapshot = true) :
    (∀ jobId, stateOkB (initialState jobId) = true)
    ∧ (∀ s u, stateOkB s = true → stateOkB (applyUpdates s u) = true)
    ∧ ((runLoop c fuel store st tr).final.error_message ≠ none →
        (runLoop c fuel store st tr).final.current_node = "error")
    ∧ (∀ ck ∈ (runLoop c fuel store st tr).store,
        ck.snapshot.error_message ≠ none → ck.snapshot.current_node = "error") := by
  obtain ⟨hfin, hcks⟩ := runLoop_stateOk c fuel store st tr hst hstore
  refine ⟨fun jobId => rfl, ?_, (stateOkB_spec _).mp hfin,
    fun ck hck => (stateOkB_spec _).mp (hcks ck hck)⟩
  intro s u hs
  simpa [stateOkB, applyUpdates] using hs

/-- C6 witness: the fresh state satisfies the invariant, and the final state
of the failing posting run has a non-null error_message and indeed sits at
the error node. -/
theorem error_implies_error_node_witness :
    stateOkB (initialState "9") = true
    ∧ (runLoop downCollab 2 createdWaitStore postFailState []).final.current_node
        = "error" :=
  ⟨(error_implies_error_node downCollab 2 createdWaitStore postFailState []
      rfl (by decide)).1 "9",
   (error_implies_error_node downCollab 2 createdWaitStore postFailState []
      rfl (by decide)).2.2.1 (by decide)⟩

end Eng

namespace Eng

/-- A pending generate-description node generates: it asks the AI
collaborator and copies the state with the generated body and a completed
status. -/
theorem execNode_gen (c : Collab) (st : WState) (txt : String)
    (hstatus : st.description.status = DStatus.pending)
    (hgen : c.gen st = Except.ok txt) :
    execNode c "generate-description" st
      = Except.ok { st with
          description := { st.description with body := txt, status := DStatus.completed }
          updated_at := st.updated_at + 1 } := by
  have h0 : execNode c "generate-description" st
      = (if st.description.status == DStatus.completed then Except.ok st
         else
           match c.gen st with
           | Except.ok t =>
               Except.ok { st with
                 description := { st.description with body := t, status := DStatus.completed }
                 updated_at := st.updated_at + 1 }
           | Except.error e => Except.error e) := rfl
  rw [h0, show (st.description.status == DStatus.completed) = false by simp [hstatus], hgen]
  rfl

/-- C7: creating a job runs the loop on the fresh state; the
generate-description node runs once, the engine halts at the
description-approval interrupt node, the create response carries the job id
and that halt node, and a subsequent job-status read projects
await-description-approval from the latest checkpoint. -/
theorem create_job_halts_at_wait (c : Collab) (store : Store) (jobId txt : String)
    (hgen : c.gen (initialState jobId) = Except.ok txt) :
    (create_job c store jobId).1 = ⟨jobId, "await-description-approval"⟩
    ∧ (create_job c store jobId).2.final.current_node = "await-description-approval"
    ∧ job_status (create_job c store jobId).2.store jobId
        = some "await-description-approval"
    ∧ (create_job c store jobId).2.trace = ["generate-description"]
    ∧ (create_job c store jobId).2.failure = none := by
  have hexec : execNode c (initialState jobId).current_node (initialState jobId)
      = Except.ok { (initialState jobId) with
          description := { (initialState jobId).description with body := txt, status := DStatus.completed }
          updated_at := (initialState jobId).updated_at + 1 } :=
    execNode_gen c (initialState jobId) txt rfl hgen
  have hroute : route c (initialState jobId).current_node
      { (initialState jobId) with
        description := { (initialState jobId).description with body := txt, status := DStatus.completed }
        updated_at := (initialState jobId).updated_at + 1 }
      = some "await-description-approval" := rfl
  have hrun : run_until_interrupt c store jobId
      = ⟨{ (initialState jobId) with
            current_node := "await-description-approval"
            description := { (initialState jobId).description with body := txt, status := DStatus.completed }
            updated_at := (initialState jobId).updated_at + 2 },
          ["generate-description"],
          (saveCk store ("job-" ++ jobId)
            { (initialState jobId) with
              current_node := "await-description-approval"
              description := { (initialState jobId).description with body := txt, status := DStatus.completed }
              updated_at := (initialState jobId).updated_at + 2 }).1,
          none⟩ := by
    show runLoop c (63 + 1) store (initialState jobId) [] = _
    rw [runLoop_succ_step 63 store [] hexec hroute]
    rfl
  refine ⟨?_, ?_, ?_, ?_, ?_⟩
  · show JobCreateResponseE.mk jobId (run_until_interrupt c store jobId).final.current_node = _
    rw [hrun]
  · show (run_until_interrupt c store jobId).final.current_node = _
    rw [hrun]
  · show job_status (run_until_interrupt c store jobId).store jobId = _
    rw [hrun]
    simp [job_status, load_latest, saveCk]
  · show (run_until_interrupt c store jobId).trace = _
    rw [hrun]
  · show (run_until_interrupt c store jobId).failure = none
    rw [hrun]

/-- C7 witness: creating job 42 against the concrete collaborators halts at
the description-approval wait node and the status read agrees. -/
theorem create_job_halts_witness :
    (create_job okCollab [] "42").1 = ⟨"42", "await-description-approval"⟩
    ∧ job_status (create_job okCollab [] "42").2.store "42"
        = some "await-description-approval" :=
  ⟨(create_job_halts_at_wait okCollab [] "42" "generated body" rfl).1,
   (create_job_halts_at_wait okCollab [] "42" "generated body" rfl).2.2.1⟩

end Eng

namespace Eng

/-- The set of nodes reachable from the approved description edge is closed
under routing, except for halting targets the loop never executes. -/
theorem route_closed (c : Collab) (n : String) (hn : n ∈ approvedReachable)
    (st : WState) (m : String) (hr : route c n st = some m)
    (hm : (isInterrupt m || isTerminal m) = false) : m ∈ approvedReachable := by
  fin_cases hn
  · have he : route c "post-job" st = some "monitor-applications" := rfl
    rw [he] at hr
    injection hr with h
    subst h
    decide
  · have he : route c "monitor-applications" st
        = some (if c.threshold ≤ st.applicants.count
                then "shortlist-candidates" else "monitor-applications") := rfl
    rw [he] at hr
    injection hr with h
    subst h
    by_cases hc : c.threshold ≤ st.applicants.count
    · simp only [if_pos hc]; decide
    · simp only [if_neg hc]; decide
  · have he : route c "shortlist-candidates" st = some "await-shortlist-approval" := rfl
    rw [he] at hr
    injection hr with h
    subst h
    exact absurd hm (by decide)
  · have he : route c "await-shortlist-approval" st
        = (match st.applicants.shortlist_approval with
           | Appr.approved => some "voice-prescreening"
           | Appr.rejected => some "shortlist-candidates"
           | Appr.pending => some "await-shortlist-approval") := rfl
    rw [he] at hr
    cases happr : st.applicants.shortlist_approval
    all_goals rw [happr] at hr
    all_goals injection hr with h
    all_goals subst h
    · exact absurd hm (by decide)
    · decide
    · decide
  · have he : route c "voice-prescreening" st = some "schedule-interview" := rfl
    rw [he] at hr
    injection hr with h
    subst h
    decide
  · have he : route c "schedule-interview" st = some "completed" := rfl
    rw [he] at hr
    injection hr with h
    subst h
    exact absurd hm (by decide)

/-- Starting anywhere in the approved-reachable region, the loop only ever
executes approved-reachable nodes, appending at least one of them when it
has fuel. -/
theorem runLoop_trace_closed (c : Collab) :
    ∀ (fuel : Nat) (store : Store) (st : WState) (tr : List String),
      st.current_node ∈ approvedReachable →
      ∃ l, (runLoop c fuel store st tr).trace = tr ++ l
        ∧ (∀ n ∈ l, n ∈ approvedReachable)
        ∧ (fuel ≠ 0 → l ≠ []) := by
  intro fuel
  induction fuel with
  | zero =>
    intro store st tr hn
    exact ⟨[], by simp [runLoop_zero], by simp, fun h => absurd rfl h⟩
  | succ fuel ih =>
    intro store st tr hn
    cases hexec : execNode c st.current_node st with
    | error msg =>
      rw [runLoop_succ_error fuel store tr hexec]
      exact ⟨[st.current_node], rfl, by simpa using hn, fun _ => by simp⟩
    | ok st1 =>
      cases hroute : route c st.current_node st1 with
      | none =>
        rw [runLoop_succ_none fuel store tr hexec hroute]
        exact ⟨[st.current_node], rfl, by simpa using hn, fun _ => by simp⟩
      | some nxt =>
        rw [runLoop_succ_step fuel store tr hexec hroute]
        by_cases hstop : (isInterrupt nxt || isTerminal nxt) = true
        · rw [if_pos hstop]
          exact ⟨[st.current_node], rfl, by simpa using hn, fun _ => by simp⟩
        · have hstop2 : (isInterrupt nxt || isTerminal nxt) = false := by
            simpa using hstop
          rw [if_neg hstop]
          have hnxt : nxt ∈ approvedReachable :=
            route_closed c st.current_node hn st1 nxt hroute hstop2
          obtain ⟨l, hl, hmem, hne⟩ := ih
            (saveCk store st.thread_id
              { st1 with current_node := nxt, updated_at := st1.updated_at + 1 }).1
            { st1 with current_node := nxt, updated_at := st1.updated_at + 1 }
            (tr ++ [st.current_node]) hnxt
          refine ⟨st.current_node :: l, ?_, ?_, fun _ => by simp⟩
          · rw [hl]
            simp
          · intro n hmem2
            rcases List.mem_cons.mp hmem2 with h | h
            · subst h; exact hn
            · exact hmem n h

end Eng

namespace Eng

/-- C5: resuming from a persisted checkpoint parked at the
description-approval wait node with a pending approval, with updates setting
the approval to approved, first applies the updates to the loaded latest
checkpoint and then continues from the updated current node: the first node
executed is the wait node itself, every further executed node (and in
particular the last one of the trace) lies in the region reachable from the
approved edge, and the upstream generate-description node is never
re-invoked. -/
theorem resume_approval_correct (c : Collab) (store : Store) (tid : String)
    (st : WState)
    (hload : load_latest store tid = some st)
    (hnode : st.current_node = "await-description-approval")
    (hpend : st.description.approval_status = Appr.pending) :
    (∃ rest, (resume_from_checkpoint c store tid approveUpdates).trace
        = "await-description-approval" :: rest
      ∧ (∀ n ∈ rest, n ∈ approvedReachable))
    ∧ "generate-description" ∉ (resume_from_checkpoint c store tid approveUpdates).trace
    ∧ (∃ lastNode,
        (resume_from_checkpoint c store tid approveUpdates).trace.getLast?
          = some lastNode
        ∧ lastNode ∈ approvedReachable) := by
  have hres : resume_from_checkpoint c store tid approveUpdates
      = runLoop c engineFuel store (applyUpdates st approveUpdates) [] := by
    unfold resume_from_checkpoint
    rw [hload]
  have hcur : (applyUpdates st approveUpdates).current_node
      = "await-description-approval" := hnode
  have hexec : execNode c (applyUpdates st approveUpdates).current_node
      (applyUpdates st approveUpdates)
      = Except.ok (applyUpdates st approveUpdates) := by
    rw [hcur]
    rfl
  have hroute : route c (applyUpdates st approveUpdates).current_node
      (applyUpdates st approveUpdates) = some "post-job" := by
    rw [hcur]
    rfl
  have hstep : runLoop c engineFuel store (applyUpdates st approveUpdates) []
      = runLoop c 63
          (saveCk store (applyUpdates st approveUpdates).thread_id
            { (applyUpdates st approveUpdates) with
              current_node := "post-job"
              updated_at := (applyUpdates st approveUpdates).updated_at + 1 }).1
          { (applyUpdates st approveUpdates) with
            current_node := "post-job"
            updated_at := (applyUpdates st approveUpdates).updated_at + 1 }
          ([] ++ [(applyUpdates st approveUpdates).current_node]) := by
    show runLoop c (63 + 1) store (applyUpdates st approveUpdates) [] = _
    rw [runLoop_succ_step 63 store [] hexec hroute]
    rw [if_neg (by decide)]
  obtain ⟨l, hl, hmem, hne⟩ := runLoop_trace_closed c 63
    (saveCk store (applyUpdates st approveUpdates).thread_id
      { (applyUpdates st approveUpdates) with
        current_node := "post-job"
        updated_at := (applyUpdates st approveUpdates).updated_at + 1 }).1
    { (applyUpdates st approveUpdates) with
      current_node := "post-job"
      updated_at := (applyUpdates st approveUpdates).updated_at + 1 }
    ([] ++ [(applyUpdates st approveUpdates).current_node])
    (by show "post-job" ∈ approvedReachable; decide)
  have hlne : l ≠ [] := hne (by decide)
  have htrace : (resume_from_checkpoint c store tid approveUpdates).trace
      = "await-description-approval" :: l := by
    rw [hres, hstep, hl, hcur]
    simp
  refine ⟨⟨l, htrace, hmem⟩, ?_, ?_⟩
  · rw [htrace]
    intro hmem2
    rcases List.mem_cons.mp hmem2 with h | h
    · exact absurd h (by decide)
    · have := hmem _ h
      revert this
      decide
  · refine ⟨l.getLast hlne, ?_, hmem _ (List.getLast_mem hlne)⟩
    have hcons : ("await-description-approval" :: l)
        = ["await-description-approval"] ++ l := rfl
    rw [htrace, hcons, List.getLast?_append_of_ne_nil _ hlne]
    exact List.getLast?_eq_getLast_of_ne_nil hlne

/-- C5 witness: resuming the concrete parked job 42 with the approval update
never re-runs generate-description. -/
theorem resume_approval_witness :
    "generate-description" ∉
      (resume_from_checkpoint okCollab createdWaitStore "job-42" approveUpdates).trace :=
  (resume_approval_correct okCollab createdWaitStore "job-42" createdWaitState
    (by decide) (by decide) (by decide)).2.1

end Eng

namespace Eng

/-- Every checkpoint write of the loop preserves the per-thread
strictly-increasing sequence invariant. -/
theorem runLoop_wf (c : Collab) (t : String) :
    ∀ (fuel : Nat) (store : Store) (st : WState) (tr : List String),
      wfT store t = true → wfT (runLoop c fuel store st tr).store t = true := by
  intro fuel
  induction fuel with
  | zero =>
    intro store st tr h
    rw [runLoop_zero]
    exact h
  | succ fuel ih =>
    intro store st tr h
    cases hexec : execNode c st.current_node st with
    | error msg =>
      rw [runLoop_succ_error fuel store tr hexec]
      exact saveCk_wf t h
    | ok st1 =>
      cases hroute : route c st.current_node st1 with
      | none =>
        rw [runLoop_succ_none fuel store tr hexec hroute]
        exact h
      | some nxt =>
        rw [runLoop_succ_step fuel store tr hexec hroute]
        by_cases hstop : (isInterrupt nxt || isTerminal nxt) = true
        · rw [if_pos hstop]
          exact saveCk_wf t h
        · rw [if_neg hstop]
          exact ih _ _ _ (saveCk_wf t h)

/-- C8: of two resume attempts on the same thread, one arriving while the
other holds the per-thread lock, exactly the holder proceeds: the contended
attempt receives the lock-contention outcome and leaves the lock and the
store byte-identical, while the admitted attempt runs, releases the lock,
and its resulting store still satisfies the per-thread total-order
invariant of the checkpoint log. -/
theorem lock_serialises_resume (c : Collab) (holder tid t : String)
    (storeDuring store : Store) (u : StateUpdates)
    (hwf : wfT store t = true) :
    resume_with_lock c (some holder) storeDuring tid u
      = (LockOutcome.contended, some holder, storeDuring)
    ∧ (∃ r, resume_with_lock c none store tid u
        = (LockOutcome.ran r, none, r.store)
        ∧ wfT r.store t = true) := by
  refine ⟨rfl, ⟨resume_from_checkpoint c store tid u, rfl, ?_⟩⟩
  unfold resume_from_checkpoint
  cases hload : load_latest store tid with
  | none => exact hwf
  | some st => exact runLoop_wf c t engineFuel store (applyUpdates st u) [] hwf

/-- C8 witness: with the lock held by another execution, the concrete
contended resume on job 42 changes nothing and reports contention. -/
theorem lock_serialises_witness :
    resume_with_lock okCollab (some "worker-A") createdWaitStore "job-42" approveUpdates
      = (LockOutcome.contended, some "worker-A", createdWaitStore) :=
  (lock_serialises_resume okCollab "worker-A" "job-42" "job-42"
    createdWaitStore createdWaitStore approveUpdates (by decide)).1

end Eng
